import Mathlib

/-!
Shallow embedding of the `nest-ecommerce` backend (NestJS/TypeORM) for
verification of its natural-language specification.

Conventions of the embedding:
* Database tables are Lean lists inside explicit state structures; the
  repository/query-builder calls become pure functions on that state.
* Thrown `HttpException`s become `Except` errors of type `AppError`;
  `InternalServerErrorException(error)` (wrapping a caught error object)
  is `AppError.internalWrap`, `InternalServerErrorException(message)` is
  `AppError.internalMsg`.
* `decimal` / JS `number` money values are modelled as `ℚ`; integer ids
  generated by the database are modelled by a `nextId` counter.
* Asynchronous datastore faults are injected through an explicit `Fault`
  parameter so that transactional rollback can be stated and proved.
-/

namespace NestEcommerce

/-- The exception taxonomy used by the services (NestJS `HttpException`s plus
raw datastore/provider errors).  `internalWrap` is
`new InternalServerErrorException(error)` wrapping a caught error object;
`internalMsg` is `new InternalServerErrorException(stringMessage)`. -/
inductive AppError where
  | notFound (msg : String)
  | conflict (msg : String)
  | badRequest (msg : String)
  | unauthorized (msg : String)
  | forbidden (msg : String)
  | internalWrap (cause : AppError)
  | internalMsg (msg : String)
  | dbError (msg : String)
deriving DecidableEq, Repr

/-- `error.message` of the underlying JS error object (used by the upload
service's catch block).  `internalWrap` never reaches that catch block, so its
message is irrelevant; we give the NestJS default. -/
def AppError.messageOf : AppError → String
  | .notFound m => m
  | .conflict m => m
  | .badRequest m => m
  | .unauthorized m => m
  | .forbidden m => m
  | .internalWrap _ => "Internal Server Error"
  | .internalMsg m => m
  | .dbError m => m

/-! ## Orders data model (src/orders/entities) -/

/-- `OrderStatus` union type of `order.entity.ts`. -/
inductive OrderStatus where
  | pending
  | confirmed
  | shipped
  | delivered
  | cancelled
deriving DecidableEq, Repr

/-- One element of `CreateOrderDto.orderItems` (`order-item.dto.ts`). -/
structure OrderItemDto where
  productId : String
  quantity : Nat
  price : ℚ
deriving DecidableEq, Repr

/-- `CreateOrderDto` (`create-order.dto.ts`); `paymentMethod` is one of the
four payment-method strings, kept as `String` here. -/
structure CreateOrderDto where
  userId : Int
  orderItems : List OrderItemDto
  shippingAddress : String
  paymentMethod : String
deriving DecidableEq, Repr

/-- A persisted `orders` row (`order.entity.ts`), uuid modelled as `Nat`. -/
structure Order where
  id : Nat
  userId : Int
  totalAmount : ℚ
  status : OrderStatus
  shippingAddress : String
  paymentMethod : String
deriving DecidableEq, Repr

/-- A persisted `order_items` row (`order-item.entity.ts`): quantity, price,
and the `ManyToOne` references to the product and the owning order. -/
structure OrderItem where
  id : Nat
  quantity : Nat
  price : ℚ
  productId : String
  orderId : Nat
deriving DecidableEq, Repr

/-- The orders-side database state: the two tables plus the id generator. -/
structure OrdersDb where
  orders : List Order
  orderItems : List OrderItem
  nextId : Nat
deriving DecidableEq, Repr

/-- Well-formedness of the database state: every already-persisted id is below
the generator's next value, so freshly generated ids are really fresh. -/
def OrdersDb.WF (db : OrdersDb) : Prop :=
  (∀ o ∈ db.orders, o.id < db.nextId) ∧
  (∀ it ∈ db.orderItems, it.id < db.nextId ∧ it.orderId < db.nextId)

instance (db : OrdersDb) : Decidable db.WF := by
  unfold OrdersDb.WF; infer_instance

/-- The order together with its `orderItems` relation, as returned by the
final `findOne(Order, { relations: ['orderItems'] })` re-read. -/
structure FullOrder where
  order : Order
  orderItems : List OrderItem
deriving DecidableEq, Repr

/-- Fault injection for the steps inside the order-creation transaction:
no fault, failure of the header insert, failure of the `i`-th line-item
insert, or failure of the final re-read. -/
inductive Fault where
  | noFault
  | onHeader
  | onItem (i : Nat)
  | onRead
deriving DecidableEq, Repr

/-- Sequential `save` of the mapped line items inside the transaction: each
item gets a fresh id and references the created order (`order: createdOrder`)
and the submitted product id (`product: { id: item.productId }`).  A fault
`onItem idx` makes the corresponding row insert fail. -/
def insertItems (db : OrdersDb) (oid : Nat) (items : List OrderItemDto)
    (fault : Fault) (idx : Nat) : Except AppError OrdersDb :=
  match items with
  | [] => .ok db
  | it :: rest =>
    if fault = .onItem idx then
      .error (.dbError "order item insert failed")
    else
      insertItems
        { db with
          orderItems := db.orderItems ++
            [{ id := db.nextId, quantity := it.quantity, price := it.price,
               productId := it.productId, orderId := oid }],
          nextId := db.nextId + 1 }
        oid rest fault (idx + 1)

/-- The body of `dataSource.manager.transaction` in `OrdersService.create`:
(a) insert the order header (status defaults to `pending`), (b) insert one
line item per submitted item, (c) re-read the order with its `orderItems`
relation (`findOne` yields `null`, i.e. `none`, if the row is not found). -/
def runOrderTransaction (db : OrdersDb) (dto : CreateOrderDto)
    (totalAmount : ℚ) (fault : Fault) :
    Except AppError (Option FullOrder × OrdersDb) :=
  if fault = .onHeader then
    .error (.dbError "order header insert failed")
  else
    let hdr : Order :=
      { id := db.nextId, userId := dto.userId, totalAmount := totalAmount,
        status := .pending, shippingAddress := dto.shippingAddress,
        paymentMethod := dto.paymentMethod }
    let db1 : OrdersDb :=
      { db with orders := db.orders ++ [hdr], nextId := db.nextId + 1 }
    match insertItems db1 hdr.id dto.orderItems fault 0 with
    | .error e => .error e
    | .ok db2 =>
      if fault = .onRead then
        .error (.dbError "final order read failed")
      else
        match db2.orders.find? (fun o => o.id = hdr.id) with
        | some o =>
          .ok (some { order := o,
                      orderItems :=
                        db2.orderItems.filter (fun it => it.orderId = o.id) },
              db2)
        | none => .ok (none, db2)

/-- `OrdersService.create`: computes
`totalAmount = orderItems.reduce((total, item) => total + item.price * item.quantity, 0)`,
runs the transaction, and on any transaction failure rolls the state back and
rethrows as `new InternalServerErrorException(error)`. -/
def createOrder (db : OrdersDb) (dto : CreateOrderDto) (fault : Fault) :
    Except AppError (Option FullOrder) × OrdersDb :=
  let totalAmount :=
    dto.orderItems.foldl
      (fun total item => total + item.price * (item.quantity : ℚ)) 0
  match runOrderTransaction db dto totalAmount fault with
  | .ok (fo, db2) => (.ok fo, db2)
  | .error e => (.error (.internalWrap e), db)

/-! ## Order listing (`OrdersService.findAll`) -/

/-- The optional `filters` argument of `OrdersService.findAll`. -/
structure OrderFilters where
  status : Option OrderStatus := none
  userId : Option Int := none
  page : Option Nat := none
  limit : Option Nat := none
deriving DecidableEq, Repr

/-- JS `v || d` on an optional number: `d` when the value is absent or `0`
(falsy), the value itself otherwise. -/
def jsOrDefault (v : Option Nat) (d : Nat) : Nat :=
  match v with
  | some n => if n ≠ 0 then n else d
  | none => d

/-- Effective page: `filters?.page || 1`. -/
def effPage (filters : Option OrderFilters) : Nat :=
  jsOrDefault (filters.bind (fun f => f.page)) 1

/-- Effective limit: `filters?.limit || 10`. -/
def effLimit (filters : Option OrderFilters) : Nat :=
  jsOrDefault (filters.bind (fun f => f.limit)) 10

/-- `OrdersService.findAll`: builds a query, adds
`andWhere('order.status = :status')` when `filters?.status` is truthy (a
status enum string is truthy exactly when present), adds
`andWhere('order.userId = :userId')` when `filters?.userId` is truthy (a
number is truthy exactly when present and nonzero), then applies
`skip((page - 1) * limit).take(limit)` with `page = filters?.page || 1` and
`limit = filters?.limit || 10`. -/
def ordersFindAll (db : OrdersDb) (filters : Option OrderFilters) : List Order :=
  let afterStatus : List Order :=
    match filters.bind (fun f => f.status) with
    | some s => db.orders.filter (fun o => o.status = s)
    | none => db.orders
  let afterUser : List Order :=
    match filters.bind (fun f => f.userId) with
    | some u => if u ≠ 0 then afterStatus.filter (fun o => o.userId = u)
                else afterStatus
    | none => afterStatus
  let page := effPage filters
  let limit := effLimit filters
  ((afterUser.drop ((page - 1) * limit)).take limit)

/-- The single-filter predicate that the two `andWhere` clauses of
`findAll` amount to: the status clause when a status is present, and the
userId clause when a nonzero (truthy) user id is present. -/
def matchesOrderFilters (f : OrderFilters) (o : Order) : Bool :=
  (match f.status with
   | some s => o.status = s
   | none => true) &&
  (match f.userId with
   | some u => if u ≠ 0 then o.userId = u else true
   | none => true)

/-! ## Users data model (src/users) -/

/-- `UserRole` enum of `user.entity.ts` (ordinary user / administrator). -/
inductive UserRole where
  | user
  | admin
deriving DecidableEq, Repr

/-- The string value stored in / compared against the role column
(`UserRole.USER = 'user'`, `UserRole.ADMIN = 'admin'`). -/
def UserRole.toColumn : UserRole → String
  | .user => "user"
  | .admin => "admin"

/-- A persisted `users` row.  The entity file itself is not among the
provided sources; fields follow `CreateUserDto` plus the stored password
hash and the role column. -/
structure User where
  id : String
  email : String
  password : String
  firstName : String
  lastName : String
  role : UserRole
deriving DecidableEq, Repr

/-- Modelled from the spec: the `User` entity (its file is absent from the
sources) declares the password column as excluded from default selection, so
every ordinary repository read returns the record without the stored hash
("password never returned in any read path"; the login query re-selects it
explicitly).  `UserView` is a user row as such a default read returns it. -/
structure UserView where
  id : String
  email : String
  firstName : String
  lastName : String
  role : UserRole
deriving DecidableEq, Repr

/-- Drop the password column from a row (default selection / the explicit
`const { password, ...result } = savedUser` destructuring in `create`). -/
def stripPassword (u : User) : UserView :=
  { id := u.id, email := u.email, firstName := u.firstName,
    lastName := u.lastName, role := u.role }

/-- `CreateUserDto` (`create-user.dto.ts`), optional phone/address elided. -/
structure CreateUserDto where
  email : String
  password : String
  firstName : String
  lastName : String
  role : UserRole
deriving DecidableEq, Repr

/-- The users-side database state plus the uuid generator. -/
structure UsersDb where
  users : List User
  nextId : Nat
deriving DecidableEq, Repr

/-- `bcrypt.hash(raw, 10)`: the external bcrypt library is modelled by an
injective deterministic encoding; the salt and the fixed cost factor 10 are
abstracted away, which preserves exactly the property the services rely on:
`bcrypt.compare(raw, h)` succeeds iff `h` was produced from `raw`. -/
def bcryptHash (raw : String) : String :=
  "bcrypt-2b-10-" ++ raw

/-- `bcrypt.compare(raw, hash)` under the same modelling. -/
def bcryptCompare (raw hash : String) : Bool :=
  hash = bcryptHash raw

/-- `UsersService.create` (registration): `Conflict` if a record with the
same email exists (state unchanged), otherwise persist the user with the
hashed password and return the saved record with the password destructured
away. -/
def usersCreate (db : UsersDb) (dto : CreateUserDto) :
    Except AppError UserView × UsersDb :=
  match db.users.find? (fun u => u.email = dto.email) with
  | some _ => (.error (.conflict "User with this email already exists"), db)
  | none =>
    let saved : User :=
      { id := "u" ++ toString db.nextId, email := dto.email,
        password := bcryptHash dto.password, firstName := dto.firstName,
        lastName := dto.lastName, role := dto.role }
    (.ok (stripPassword saved),
     { users := db.users ++ [saved], nextId := db.nextId + 1 })

/-- `UsersService.findAll`: `userRepository.find()` (default selection). -/
def usersFindAll (db : UsersDb) : List UserView :=
  db.users.map stripPassword

/-- `UsersService.findOne`: `findOne({ where: { id } })` (default
selection), throwing `NotFoundException` when no row matches. -/
def usersFindOne (db : UsersDb) (id : String) : Except AppError UserView :=
  match db.users.find? (fun u => u.id = id) with
  | some u => .ok (stripPassword u)
  | none => .error (.notFound ("User with ID " ++ id ++ " not found"))

/-- `UsersService.findByEmail`: `findOne({ where: { email } })`, returning
`null` (`none`) when no row matches. -/
def usersFindByEmail (db : UsersDb) (email : String) : Option UserView :=
  (db.users.find? (fun u => u.email = email)).map stripPassword

/-- The JWT payload signed by `login` and decoded by the auth guard:
`{ id, email }`. -/
structure JwtPayload where
  id : String
  email : String
deriving DecidableEq, Repr

/-- `UsersService.login`: inside the `try` block — look the user up by email
with an explicit `select` of id/email/password, throw
`UnauthorizedException('Invalid Credentials')` when no user matches or the
bcrypt comparison fails, otherwise sign `{ id, email }`.  The method's
`catch (error)` block rethrows every caught error — the two
`UnauthorizedException`s included, there is no `instanceof` re-throw here —
as `new InternalServerErrorException(error)`. -/
def usersLogin (db : UsersDb) (email password : String) :
    Except AppError JwtPayload :=
  let attempt : Except AppError JwtPayload :=
    match db.users.find? (fun u => u.email = email) with
    | none => .error (.unauthorized "Invalid Credentials")
    | some user =>
      if bcryptCompare password user.password then
        .ok { id := user.id, email := user.email }
      else
        .error (.unauthorized "Invalid Credentials")
  match attempt with
  | .ok t => .ok t
  | .error e => .error (.internalWrap e)

/-! ## Access Guard (`auth.guard.ts`) and Role Guard (`roles.guard.ts`) -/

/-- JS `String.prototype.split(' ')` on a character list: split at every
space, preserving empty segments. -/
def splitOnSpaceChars : List Char → List (List Char)
  | [] => [[]]
  | c :: rest =>
    if c = ' ' then [] :: splitOnSpaceChars rest
    else
      match splitOnSpaceChars rest with
      | [] => [[c]]
      | g :: gs => (c :: g) :: gs

/-- JS `header.split(' ')` as the guard uses it. -/
def jsSplitSpace (s : String) : List String :=
  (splitOnSpaceChars s.toList).map (fun cs => String.mk cs)

/-- `AuthGuard.extractTokenFromHeader`: split the `authorization` header on
a space, destructure into `[type, token]`, and keep the token only under
the `Bearer` scheme. -/
def extractTokenFromHeader (authorization : Option String) : Option String :=
  match authorization with
  | none => none
  | some h =>
    match jsSplitSpace h with
    | ty :: tok :: _ => if ty = "Bearer" then some tok else none
    | _ => none

/-- `AuthGuard.canActivate`: no token ⇒ `Unauthorized('No token provided')`;
then `jwtService.verifyAsync` (modelled as the `verify` argument; a thrown
verification error propagates — the guard has no try/catch); then
`usersService.findOne(payload.id)`, whose `NotFoundException` likewise
propagates.  The guard's own `if (!user) throw new
UnauthorizedException('User not found')` branch is unreachable, because
`findOne` throws instead of returning `null`; on success the resolved user
is attached to the request (returned here). -/
def authGuardCanActivate (db : UsersDb)
    (verify : String → Except AppError JwtPayload)
    (authorization : Option String) : Except AppError UserView :=
  match extractTokenFromHeader authorization with
  | none => .error (.unauthorized "No token provided")
  | some tok =>
    match verify tok with
    | .error e => .error e
    | .ok payload =>
      match usersFindOne db payload.id with
      | .error e => .error e
      | .ok user => .ok user

/-- `RolesGuard.canActivate`: pass when no roles metadata is declared or the
declared list is empty; deny when no user is attached; otherwise
`requiredRoles.includes(user.role)`. -/
def rolesGuardCanActivate (requiredRoles : Option (List String))
    (user : Option UserView) : Bool :=
  match requiredRoles with
  | none => true
  | some roles =>
    if roles.length = 0 then true
    else
      match user with
      | none => false
      | some u => roles.contains u.role.toColumn

/-- The framework turns a guard's `false` into
`ForbiddenException('Forbidden resource')`; `true` lets the request pass. -/
def rolesGuardOutcome (requiredRoles : Option (List String))
    (user : Option UserView) : Except AppError Unit :=
  if rolesGuardCanActivate requiredRoles user then .ok ()
  else .error (.forbidden "Forbidden resource")

/-! ## Upload service (`upload.service.ts`) -/

/-- `MulterFile` as the upload service consumes it: presence of the
in-memory buffer and/or the disk path, MIME type, and byte size. -/
structure MulterFile where
  hasBuffer : Bool
  hasPath : Bool
  mimetype : String
  size : Nat
deriving DecidableEq, Repr

/-- `allowedMimeTypes` of `UploadService.validateFile`. -/
def allowedMimeTypes : List String :=
  ["image/jpeg", "image/png", "image/gif"]

/-- `maxSizeInBytes = 5 * 1024 * 1024` of `UploadService.validateFile`. -/
def maxSizeInBytes : Nat := 5 * 1024 * 1024

/-- `UploadService.validateFile`: reject a MIME type outside the allow-list,
then a size above 5 MiB, each with a `BadRequestException`. -/
def validateFile (file : MulterFile) : Except AppError Unit :=
  if ¬ (allowedMimeTypes.contains file.mimetype) then
    .error (.badRequest "Invalid file type. Only JPEG, PNG, and GIF are allowed.")
  else if file.size > maxSizeInBytes then
    .error (.badRequest "File size exceeds the 5MB limit.")
  else
    .ok ()

/-- The storage provider's response (`CloudinaryResponse`), reduced to the
fields the claims mention. -/
structure CloudinaryResponse where
  publicId : String
  secureUrl : String
deriving DecidableEq, Repr

/-- Outcome of the network call to the storage provider, injected as a
parameter: success, a provider-side error, or the 30-second race timeout. -/
inductive ProviderOutcome where
  | success (r : CloudinaryResponse)
  | failure (msg : String)
  | timeout
deriving DecidableEq, Repr

/-- `UploadService.uploadImage`: validate first, then (buffer or path
present) perform the provider call, else throw `BadRequestException('No
file data provided')`; the surrounding `catch` rethrows a caught error whose
message is `'Upload timeout'` as the dedicated timeout
`InternalServerErrorException`, and every other caught error — the
`BadRequestException`s from validation included — as
`new InternalServerErrorException('Upload failed: ' + message)`.
The second component records whether the provider call was attempted. -/
def uploadImage (file : MulterFile) (provider : ProviderOutcome) :
    Except AppError CloudinaryResponse × Bool :=
  match validateFile file with
  | .error e =>
    (.error (.internalMsg ("Upload failed: " ++ e.messageOf)), false)
  | .ok _ =>
    if file.hasBuffer || file.hasPath then
      match provider with
      | .success r => (.ok r, true)
      | .failure m =>
        (.error (.internalMsg ("Upload failed: Cloudinary error: " ++ m)), true)
      | .timeout =>
        (.error (.internalMsg
          "File upload timed out. Please try again with a smaller file."), true)
    else
      (.error (.internalMsg "Upload failed: No file data provided"), false)

/-- Whether an upload result is a top-level `BadRequestException`. -/
def isBadRequestResult (r : Except AppError CloudinaryResponse) : Bool :=
  match r with
  | .error (.badRequest _) => true
  | _ => false

/-! ## Auxiliary definitions for the verification -/

/-- `hitsItems fault idx n`: the injected fault hits one of the `n` line-item
inserts whose indices start at `idx`. -/
def Fault.hitsItems (fault : Fault) (idx n : Nat) : Prop :=
  ∃ j, fault = .onItem j ∧ idx ≤ j ∧ j < idx + n

/-- The line-item rows that a fault-free run of the item inserts produces,
ids counting up from `base`, all referencing order `oid`. -/
def mkNewItems (oid : Nat) (base : Nat) : List OrderItemDto → List OrderItem
  | [] => []
  | it :: rest =>
    { id := base, quantity := it.quantity, price := it.price,
      productId := it.productId, orderId := oid } :: mkNewItems oid (base + 1) rest

/-- The order header that `OrdersService.create` inserts. -/
def newHeader (db : OrdersDb) (dto : CreateOrderDto) : Order :=
  { id := db.nextId, userId := dto.userId,
    totalAmount :=
      dto.orderItems.foldl
        (fun total item => total + item.price * (item.quantity : ℚ)) 0,
    status := .pending, shippingAddress := dto.shippingAddress,
    paymentMethod := dto.paymentMethod }

/-- Empty orders database used for the concrete order examples. -/
def c1Db : OrdersDb := { orders := [], orderItems := [], nextId := 1 }

/-- The spec's example `createOrder` input: user 7, two line items with
prices 10 and 5 and quantities 2 and 1. -/
def c1Dto : CreateOrderDto :=
  { userId := 7, shippingAddress := "123 Main Street",
    paymentMethod := "credit_card",
    orderItems := [{ productId := "P1", quantity := 2, price := 10 },
                   { productId := "P2", quantity := 1, price := 5 }] }

/-- A persisted order belonging to user 1, used to exercise the zero-userId
filter. -/
def c10Order : Order :=
  { id := 0, userId := 1, totalAmount := 0, status := .pending,
    shippingAddress := "somewhere", paymentMethod := "paypal" }

/-- One-order database for the C10 counterexample. -/
def c10Db : OrdersDb := { orders := [c10Order], orderItems := [], nextId := 1 }

/-- Replace every stored password hash using `f`, leaving every other column
unchanged; read paths must be invariant under this. -/
def scrubDb (db : UsersDb) (f : String → String) : UsersDb :=
  { db with
    users := db.users.map (fun u => { u with password := f u.password }) }

/-- A registered user whose password is the hash of `correct-password`. -/
def c3User : User :=
  { id := "u1", email := "alice@example.com",
    password := bcryptHash "correct-password", firstName := "Alice",
    lastName := "Liddell", role := .user }

/-- One-user database for the concrete authentication examples; it contains
no user with id `u9`. -/
def c3Db : UsersDb := { users := [c3User], nextId := 2 }

/-- A verifier describing a token whose signature checks out and whose
payload references user id `u9` (a deleted / nonexistent user). -/
def c4Verify : String → Except AppError JwtPayload :=
  fun _ => .ok { id := "u9", email := "ghost@example.com" }

/-- Empty users database for the registration and lookup examples. -/
def c5Db : UsersDb := { users := [], nextId := 0 }

/-- Registration input used by the concrete registration examples. -/
def c5Dto : CreateUserDto :=
  { email := "alice@example.com", password := "correct-password",
    firstName := "Alice", lastName := "Liddell", role := .user }

/-- A resolved ordinary-role user for the role-guard examples. -/
def c6UserView : UserView :=
  { id := "u1", email := "user@example.com", firstName := "U",
    lastName := "Ser", role := .user }

/-- A resolved administrator for the role-guard examples. -/
def c6AdminView : UserView :=
  { id := "u2", email := "admin@example.com", firstName := "A",
    lastName := "Dmin", role := .admin }

/-- A small PDF upload: disallowed MIME type, tiny size. -/
def c7PdfFile : MulterFile :=
  { hasBuffer := true, hasPath := false, mimetype := "application/pdf",
    size := 100 }

/-- A PNG upload one byte over the 5 MiB limit. -/
def c7BigFile : MulterFile :=
  { hasBuffer := true, hasPath := false, mimetype := "image/png",
    size := 5 * 1024 * 1024 + 1 }

/-- A small PNG upload passing both checks. -/
def c7GoodFile : MulterFile :=
  { hasBuffer := true, hasPath := false, mimetype := "image/png",
    size := 1024 }

/-- A canned successful storage-provider response. -/
def c7Resp : CloudinaryResponse :=
  { publicId := "uploads/abc", secureUrl := "https://cdn.example/abc" }

/-! ## Lemmas about the order-creation transaction -/

lemma mkNewItems_length (oid base : Nat) (l : List OrderItemDto) :
    (mkNewItems oid base l).length = l.length := by
  induction l generalizing base with
  | nil => rfl
  | cons it rest ih => simp [mkNewItems, ih]

lemma mkNewItems_orderId (oid base : Nat) (l : List OrderItemDto) :
    ∀ x ∈ mkNewItems oid base l, x.orderId = oid := by
  induction l generalizing base with
  | nil => simp [mkNewItems]
  | cons it rest ih =>
    intro x hx
    rcases List.mem_cons.mp hx with h | h
    · rw [h]
    · exact ih (base + 1) x h

lemma mkNewItems_fields (oid base : Nat) (l : List OrderItemDto) :
    (mkNewItems oid base l).map (fun it => (it.productId, it.quantity, it.price))
      = l.map (fun it => (it.productId, it.quantity, it.price)) := by
  induction l generalizing base with
  | nil => rfl
  | cons it rest ih => simp [mkNewItems, ih]

lemma insertItems_ok (items : List OrderItemDto) :
    ∀ (db : OrdersDb) (oid idx : Nat) (fault : Fault),
      ¬ fault.hitsItems idx items.length →
      insertItems db oid items fault idx =
        .ok { db with
              orderItems := db.orderItems ++ mkNewItems oid db.nextId items,
              nextId := db.nextId + items.length } := by
  induction items with
  | nil =>
    intro db oid idx fault _
    simp [insertItems, mkNewItems]
  | cons it rest ih =>
    intro db oid idx fault h
    have hne : ¬ fault = .onItem idx := by
      intro hf
      refine h ⟨idx, hf, le_refl idx, ?_⟩
      simp only [List.length_cons]
      omega
    have hrest : ¬ fault.hitsItems (idx + 1) rest.length := by
      rintro ⟨j, hj, hj1, hj2⟩
      refine h ⟨j, hj, by omega, ?_⟩
      simp only [List.length_cons]
      omega
    rw [insertItems, if_neg hne, ih _ oid (idx + 1) fault hrest]
    simp [mkNewItems, List.append_assoc]
    omega

lemma insertItems_error (items : List OrderItemDto) :
    ∀ (db : OrdersDb) (oid idx : Nat) (fault : Fault),
      fault.hitsItems idx items.length →
      ∃ e, insertItems db oid items fault idx = .error e := by
  induction items with
  | nil =>
    intro db oid idx fault h
    rcases h with ⟨j, _, hj1, hj2⟩
    simp only [List.length_nil] at hj2
    omega
  | cons it rest ih =>
    intro db oid idx fault h
    by_cases hf : fault = .onItem idx
    · exact ⟨.dbError "order item insert failed", by rw [insertItems, if_pos hf]⟩
    · rcases h with ⟨j, hj, hj1, hj2⟩
      simp only [List.length_cons] at hj2
      have hjne : j ≠ idx := by
        intro hji; exact hf (hji ▸ hj)
      have hrest : fault.hitsItems (idx + 1) rest.length :=
        ⟨j, hj, by omega, by omega⟩
      rcases ih _ oid (idx + 1) fault hrest with ⟨e, he⟩
      exact ⟨e, by rw [insertItems, if_neg hf, he]⟩

lemma find?_append_of_none {α : Type} (l₁ l₂ : List α) (p : α → Bool)
    (h : ∀ x ∈ l₁, p x = false) :
    (l₁ ++ l₂).find? p = l₂.find? p := by
  induction l₁ with
  | nil => rfl
  | cons a l ih =>
    have ha := h a (List.mem_cons_self a l)
    simp only [List.cons_append, List.find?, ha]
    exact ih (fun x hx => h x (List.mem_cons_of_mem a hx))

/-- Closed form of a fault-free `OrdersService.create` run on a well-formed
database: header and items are inserted, and the final re-read returns the
header together with exactly the freshly inserted items. -/
lemma createOrder_noFault (db : OrdersDb) (dto : CreateOrderDto) (hwf : db.WF) :
    createOrder db dto .noFault =
      (.ok (some { order := newHeader db dto,
                   orderItems :=
                     mkNewItems db.nextId (db.nextId + 1) dto.orderItems }),
       { orders := db.orders ++ [newHeader db dto],
         orderItems :=
           db.orderItems ++ mkNewItems db.nextId (db.nextId + 1) dto.orderItems,
         nextId := db.nextId + 1 + dto.orderItems.length }) := by
  have hnohit : ¬ (Fault.noFault).hitsItems 0 dto.orderItems.length := by
    rintro ⟨j, hj, -, -⟩
    exact Fault.noConfusion hj
  have hins :=
    insertItems_ok dto.orderItems
      { db with orders := db.orders ++ [newHeader db dto], nextId := db.nextId + 1 }
      db.nextId 0 .noFault hnohit
  have hfind :
      ((db.orders ++ [newHeader db dto]).find?
        (fun o => o.id = (newHeader db dto).id)) = some (newHeader db dto) := by
    rw [find?_append_of_none]
    · simp [List.find?]
    · intro x hx
      have hlt := hwf.1 x hx
      simp only [decide_eq_false_iff_not]
      intro hid
      rw [hid] at hlt
      exact lt_irrefl _ hlt
  have hfilter :
      (db.orderItems ++ mkNewItems db.nextId (db.nextId + 1) dto.orderItems).filter
          (fun it => it.orderId = (newHeader db dto).id)
        = mkNewItems db.nextId (db.nextId + 1) dto.orderItems := by
    rw [List.filter_append]
    have h1 : db.orderItems.filter
        (fun it => decide (it.orderId = (newHeader db dto).id)) = [] := by
      rw [List.filter_eq_nil_iff]
      intro a ha
      have := (hwf.2 a ha).2
      simp only [decide_eq_true_eq, newHeader]
      omega
    have h2 : (mkNewItems db.nextId (db.nextId + 1) dto.orderItems).filter
        (fun it => decide (it.orderId = (newHeader db dto).id))
        = mkNewItems db.nextId (db.nextId + 1) dto.orderItems := by
      rw [List.filter_eq_self]
      intro a ha
      simp only [decide_eq_true_eq, newHeader]
      exact mkNewItems_orderId _ _ _ a ha
    rw [h1, h2, List.nil_append]
  simp only [createOrder, runOrderTransaction, newHeader] at hins hfind hfilter ⊢
  simp only [reduceIte, hins, hfind, hfilter]
  simp

lemma foldl_total_eq_sum (l : List OrderItemDto) :
    ∀ init : ℚ,
      l.foldl (fun total item => total + item.price * (item.quantity : ℚ)) init
        = init + (l.map fun it => it.price * (it.quantity : ℚ)).sum := by
  induction l with
  | nil => intro init; simp
  | cons it rest ih =>
    intro init
    simp only [List.foldl_cons, List.map_cons, List.sum_cons, ih]
    ring

/-- C1: a fault-free `createOrder` call on a well-formed state with a
non-empty item list returns an order whose `totalAmount` is the sum of
`price * quantity` over the submitted items, together with exactly one line
item per submitted item (same product id, quantity and unit price, in
order), each referencing the newly created order's id. -/
theorem createOrder_total_and_line_items (db : OrdersDb) (dto : CreateOrderDto)
    (hwf : db.WF) (_hne : dto.orderItems ≠ []) :
    ∃ fo db2, createOrder db dto .noFault = (.ok (some fo), db2) ∧
      fo.order.totalAmount
        = (dto.orderItems.map fun it => it.price * (it.quantity : ℚ)).sum ∧
      fo.orderItems.length = dto.orderItems.length ∧
      (∀ it ∈ fo.orderItems, it.orderId = fo.order.id) ∧
      fo.orderItems.map (fun it => (it.productId, it.quantity, it.price))
        = dto.orderItems.map (fun it => (it.productId, it.quantity, it.price)) := by
  refine ⟨_, _, createOrder_noFault db dto hwf, ?_, ?_, ?_, ?_⟩
  · simpa [newHeader] using foldl_total_eq_sum dto.orderItems 0
  · exact mkNewItems_length _ _ _
  · intro it hit
    exact mkNewItems_orderId _ _ _ it hit
  · exact mkNewItems_fields _ _ _

/-- Witness for C1 at the spec's concrete example; the submitted items sum
to `25` and there are two of them. -/
theorem createOrder_total_and_line_items_witness :
    (∃ fo db2, createOrder c1Db c1Dto .noFault = (.ok (some fo), db2) ∧
      fo.order.totalAmount
        = (c1Dto.orderItems.map fun it => it.price * (it.quantity : ℚ)).sum ∧
      fo.orderItems.length = c1Dto.orderItems.length ∧
      (∀ it ∈ fo.orderItems, it.orderId = fo.order.id) ∧
      fo.orderItems.map (fun it => (it.productId, it.quantity, it.price))
        = c1Dto.orderItems.map (fun it => (it.productId, it.quantity, it.price))) ∧
    (c1Dto.orderItems.map fun it => it.price * (it.quantity : ℚ)).sum = 25 ∧
    c1Dto.orderItems.length = 2 :=
  ⟨createOrder_total_and_line_items c1Db c1Dto (by decide) (by decide),
   by norm_num [c1Dto], by decide⟩

/-- C2: order creation is atomic.  Any error surfaces as `InternalError`
wrapping the underlying cause with the state rolled back unchanged; a fault
injected at the header insert, at any line-item insert, or at the final
re-read does make the call fail that way; and a fault-free run commits the
header and all line items together. -/
theorem createOrder_atomic :
    (∀ db dto fault e db2,
        createOrder db dto fault = (.error e, db2) →
        db2 = db ∧ ∃ c, e = AppError.internalWrap c) ∧
    (∀ db dto, ∃ e, createOrder db dto .onHeader = (.error e, db)) ∧
    (∀ (db : OrdersDb) (dto : CreateOrderDto) (i : Nat),
        i < dto.orderItems.length →
        ∃ e, createOrder db dto (.onItem i) = (.error e, db)) ∧
    (∀ db dto, ∃ e, createOrder db dto .onRead = (.error e, db)) ∧
    (∀ db dto fo db2,
        db.WF →
        createOrder db dto .noFault = (.ok fo, db2) →
        db2.orders = db.orders ++ [newHeader db dto] ∧
        ∃ newItems, db2.orderItems = db.orderItems ++ newItems ∧
          newItems.length = dto.orderItems.length) := by
  have herr : ∀ db dto fault e db2,
      createOrder db dto fault = (.error e, db2) →
      db2 = db ∧ ∃ c, e = AppError.internalWrap c := by
    intro db dto fault e db2 h
    rw [createOrder] at h
    rcases hr : runOrderTransaction db dto
        (dto.orderItems.foldl
          (fun total item => total + item.price * (item.quantity : ℚ)) 0)
        fault with v | c
    · rw [hr] at h
      simp only [Prod.mk.injEq, Except.error.injEq] at h
      exact ⟨h.2.symm, v, h.1.symm⟩
    · rw [hr] at h
      exact absurd h (by simp)
  refine ⟨herr, ?_, ?_, ?_, ?_⟩
  · intro db dto
    refine ⟨.internalWrap (.dbError "order header insert failed"), ?_⟩
    rw [createOrder, runOrderTransaction]
    simp
  · intro db dto i hi
    have hhit : (Fault.onItem i).hitsItems 0 dto.orderItems.length :=
      ⟨i, rfl, Nat.zero_le i, by omega⟩
    rcases insertItems_error dto.orderItems
        { db with orders := db.orders ++ [newHeader db dto],
                  nextId := db.nextId + 1 }
        db.nextId 0 (.onItem i) hhit with ⟨e, he⟩
    refine ⟨.internalWrap e, ?_⟩
    rw [createOrder, runOrderTransaction]
    simp only [newHeader] at he
    simp [he]
  · intro db dto
    by_cases hhit : (Fault.onRead).hitsItems 0 dto.orderItems.length
    · rcases hhit with ⟨j, hj, -, -⟩
      exact absurd hj (by simp)
    · have hins :=
        insertItems_ok dto.orderItems
          { db with orders := db.orders ++ [newHeader db dto],
                    nextId := db.nextId + 1 }
          db.nextId 0 .onRead hhit
      refine ⟨.internalWrap (.dbError "final order read failed"), ?_⟩
      rw [createOrder, runOrderTransaction]
      simp only [newHeader] at hins
      simp [hins]
  · intro db dto fo db2 hwf h
    rw [createOrder_noFault db dto hwf] at h
    simp only [Prod.mk.injEq] at h
    rw [← h.2]
    exact ⟨rfl, mkNewItems db.nextId (db.nextId + 1) dto.orderItems, rfl,
           mkNewItems_length _ _ _⟩

/-- Witness for C2: with the spec's example input, a fault injected at the
second line-item insert makes the call fail with the state rolled back, the
error wraps the cause, and the fault-free run commits header and items. -/
theorem createOrder_atomic_witness :
    (∃ e, createOrder c1Db c1Dto (.onItem 1) = (.error e, c1Db)) ∧
    (c1Db = c1Db ∧
      ∃ c, AppError.internalWrap (.dbError "order item insert failed")
            = AppError.internalWrap c) :=
  ⟨createOrder_atomic.2.2.1 c1Db c1Dto 1 (by decide),
   createOrder_atomic.1 c1Db c1Dto (.onItem 1)
     (.internalWrap (.dbError "order item insert failed")) c1Db (by rfl)⟩

/-! ## Lemmas about `OrdersService.findAll` -/

lemma filter_filter_bool {α : Type} (l : List α) (p q : α → Bool) :
    (l.filter p).filter q = l.filter (fun a => p a && q a) := by
  induction l with
  | nil => rfl
  | cons a t ih =>
    by_cases hp : p a
    · by_cases hq : q a
      · simp [List.filter_cons, hp, hq, ih]
      · simp [List.filter_cons, hp, hq, ih]
    · simp [List.filter_cons, hp, ih]

/-- The two `andWhere` clauses plus `skip`/`take` of `findAll`, written as a
single filter followed by one slice. -/
lemma ordersFindAll_eq (db : OrdersDb) (f : OrderFilters) :
    ordersFindAll db (some f)
      = ((db.orders.filter (matchesOrderFilters f)).drop
          ((effPage (some f) - 1) * effLimit (some f))).take
            (effLimit (some f)) := by
  rw [ordersFindAll]
  rcases hs : f.status with - | s <;> rcases hu : f.userId with - | u
  · have hfun : matchesOrderFilters f = fun _ => true := by
      funext o; simp [matchesOrderFilters, hs, hu]
    simp [Option.bind, hs, hu, hfun]
  · by_cases hz : u = 0
    · have hfun : matchesOrderFilters f = fun _ => true := by
        funext o; simp [matchesOrderFilters, hs, hu, hz]
      simp [Option.bind, hs, hu, hz, hfun]
    · have hfun : matchesOrderFilters f = fun o => decide (o.userId = u) := by
        funext o; simp [matchesOrderFilters, hs, hu, hz]
      simp [Option.bind, hs, hu, hz, hfun]
  · have hfun : matchesOrderFilters f = fun o => decide (o.status = s) := by
      funext o; simp [matchesOrderFilters, hs, hu]
    simp [Option.bind, hs, hu, hfun]
  · by_cases hz : u = 0
    · have hfun : matchesOrderFilters f = fun o => decide (o.status = s) := by
        funext o; simp [matchesOrderFilters, hs, hu, hz]
      simp [Option.bind, hs, hu, hz, hfun]
    · have hfun : matchesOrderFilters f
          = fun o => decide (o.userId = u) && decide (o.status = s) := by
        funext o
        simp [matchesOrderFilters, hs, hu, hz, Bool.and_comm]
      simp [Option.bind, hs, hu, hz, hfun, filter_filter_bool]

/-- C10 (amended): with page and limit absent or `0` the defaults are
`page = 1`, `limit = 10`, and the result is the first 10 of the filtered
orders (`skip 0`); the result never exceeds the effective limit; a present
status filter and a present *nonzero* userId filter restrict the result to
matching orders (a zero userId is falsy and applies no restriction). -/
theorem ordersFindAll_defaults_and_filters (db : OrdersDb) (f : OrderFilters)
    (hp : f.page = none ∨ f.page = some 0)
    (hl : f.limit = none ∨ f.limit = some 0) :
    effPage (some f) = 1 ∧ effLimit (some f) = 10 ∧
    ordersFindAll db (some f)
      = (db.orders.filter (matchesOrderFilters f)).take 10 ∧
    (ordersFindAll db (some f)).length ≤ 10 ∧
    (∀ o ∈ ordersFindAll db (some f),
      (∀ s, f.status = some s → o.status = s) ∧
      (∀ u, f.userId = some u → u ≠ 0 → o.userId = u)) := by
  have hpage : effPage (some f) = 1 := by
    rcases hp with h | h <;> simp [effPage, jsOrDefault, Option.bind, h]
  have hlimit : effLimit (some f) = 10 := by
    rcases hl with h | h <;> simp [effLimit, jsOrDefault, Option.bind, h]
  have heq := ordersFindAll_eq db f
  rw [hpage, hlimit] at heq
  simp only [Nat.sub_self, Nat.zero_mul, List.drop_zero] at heq
  refine ⟨hpage, hlimit, heq, ?_, ?_⟩
  · rw [heq]
    exact List.length_take_le 10 _
  · intro o ho
    rw [heq] at ho
    have hmem : o ∈ db.orders.filter (matchesOrderFilters f) :=
      List.mem_of_mem_take ho
    have hmatch : matchesOrderFilters f o = true := List.of_mem_filter hmem
    rw [matchesOrderFilters, Bool.and_eq_true] at hmatch
    constructor
    · intro s hsome
      have := hmatch.1
      rw [hsome] at this
      simpa using this
    · intro u hsome hz
      have := hmatch.2
      rw [hsome] at this
      simp only [if_neg (by exact hz)] at this
      simpa [hz] using this

/-- C10 counterexample: with the filter `userId = 0` present, `findAll`
returns an order whose `userId` is `1` — `0` is falsy, so the clause is
skipped and the result is not restricted to matching orders. -/
theorem ordersFindAll_userid_zero_cex :
    ordersFindAll c10Db
        (some { status := none, userId := some 0, page := none, limit := none })
      = [c10Order] ∧
    c10Order.userId ≠ 0 :=
  ⟨rfl, by decide⟩

/-- Witness for C10 at a three-order database with defaulted page and
limit: the result is the filtered list itself (fewer than 10 rows). -/
theorem ordersFindAll_defaults_and_filters_witness :
    effPage (some { status := none, userId := some 1, page := none,
                    limit := some 0 }) = 1 ∧
    effLimit (some { status := none, userId := some 1, page := none,
                     limit := some 0 }) = 10 ∧
    ordersFindAll c10Db
        (some { status := none, userId := some 1, page := none,
                limit := some 0 })
      = (c10Db.orders.filter
          (matchesOrderFilters
            { status := none, userId := some 1, page := none,
              limit := some 0 })).take 10 ∧
    (ordersFindAll c10Db
        (some { status := none, userId := some 1, page := none,
                limit := some 0 })).length ≤ 10 ∧
    (∀ o ∈ ordersFindAll c10Db
        (some { status := none, userId := some 1, page := none,
                limit := some 0 }),
      (∀ s, (none : Option OrderStatus) = some s → o.status = s) ∧
      (∀ u, (some 1 : Option Int) = some u → u ≠ 0 → o.userId = u)) :=
  ordersFindAll_defaults_and_filters c10Db
    { status := none, userId := some 1, page := none, limit := some 0 }
    (Or.inl rfl) (Or.inr rfl)

/-! ## Users service theorems -/

/-- C3: `login` behaviour at concrete inputs.  With a correct email and a
wrong password, and likewise with an unknown email, the call fails — with
the same message in both cases, revealing nothing about the email's
existence — but the failure reaching the caller is
`InternalServerErrorException` *wrapping* the `UnauthorizedException`
thrown inside the `try` block (the catch-all rethrows it), not
`Unauthorized` itself; with correct credentials it returns the signed
`{ id, email }` payload. -/
theorem login_unauthorized_wrapped_internal :
    usersLogin c3Db "alice@example.com" "wrong-password"
      = .error (.internalWrap (.unauthorized "Invalid Credentials")) ∧
    usersLogin c3Db "nobody@example.com" "wrong-password"
      = .error (.internalWrap (.unauthorized "Invalid Credentials")) ∧
    usersLogin c3Db "alice@example.com" "correct-password"
      = .ok { id := "u1", email := "alice@example.com" } :=
  ⟨rfl, rfl, rfl⟩

/-- C4: a bearer token whose signature verifies but whose payload id
references no existing user makes the Access Guard fail with the
`NotFoundException` propagated from `usersService.findOne` — not with
`Unauthorized("User not found")`, whose throw site in the guard is
unreachable because `findOne` throws instead of returning `null`. -/
theorem authGuard_deleted_user_surfaces_not_found :
    authGuardCanActivate c3Db c4Verify (some "Bearer signed.jwt.token")
      = .error (.notFound "User with ID u9 not found") ∧
    AppError.notFound "User with ID u9 not found"
      ≠ AppError.unauthorized "User not found" :=
  ⟨rfl, by decide⟩

/-- C5: registration fails with `Conflict` and leaves the state unchanged
when a user with the same email exists; otherwise it persists exactly one
new user whose stored password is the salted hash of the raw password and
returns the saved record with the password field stripped (the stripped
view is independent of the stored hash). -/
theorem usersCreate_conflict_or_persist :
    (∀ (db : UsersDb) (dto : CreateUserDto),
        (∃ u ∈ db.users, u.email = dto.email) →
        usersCreate db dto
          = (.error (.conflict "User with this email already exists"), db)) ∧
    (∀ (db : UsersDb) (dto : CreateUserDto),
        (∀ u ∈ db.users, u.email ≠ dto.email) →
        ∃ saved : User,
          usersCreate db dto
            = (.ok (stripPassword saved),
               { users := db.users ++ [saved], nextId := db.nextId + 1 }) ∧
          saved.password = bcryptHash dto.password ∧
          saved.email = dto.email) ∧
    (∀ (u : User) (p : String),
        stripPassword { u with password := p } = stripPassword u) := by
  refine ⟨?_, ?_, fun u p => rfl⟩
  · intro db dto h
    rcases hf : db.users.find? (fun u => u.email = dto.email) with - | u
    · rcases h with ⟨u, hu, he⟩
      have := List.find?_eq_none.mp hf u hu
      simp [he] at this
    · simp only [usersCreate, hf]
  · intro db dto h
    have hf : db.users.find? (fun u => u.email = dto.email) = none :=
      List.find?_eq_none.mpr (fun u hu => by simp [h u hu])
    refine ⟨{ id := "u" ++ toString db.nextId, email := dto.email,
              password := bcryptHash dto.password, firstName := dto.firstName,
              lastName := dto.lastName, role := dto.role }, ?_, rfl, rfl⟩
    simp only [usersCreate, hf]

/-- Witness for C5: registering `alice@example.com` on the empty database
persists her; registering the same email against the resulting one-user
database fails with `Conflict` and changes nothing. -/
theorem usersCreate_conflict_or_persist_witness :
    (usersCreate c3Db c5Dto
      = (.error (.conflict "User with this email already exists"), c3Db)) ∧
    (∃ saved : User,
      usersCreate c5Db c5Dto
        = (.ok (stripPassword saved),
           { users := c5Db.users ++ [saved], nextId := c5Db.nextId + 1 }) ∧
      saved.password = bcryptHash c5Dto.password ∧
      saved.email = c5Dto.email) :=
  ⟨usersCreate_conflict_or_persist.1 c3Db c5Dto
     ⟨c3User, by decide, by decide⟩,
   usersCreate_conflict_or_persist.2.1 c5Db c5Dto (by decide)⟩

/-- C9: the two lookup paths are asymmetric — `findOne` on an id with no
matching user fails with `NotFound`, while `findByEmail` on an email with
no matching user returns `null`. -/
theorem lookup_asymmetry :
    (∀ (db : UsersDb) (uid : String),
        (∀ u ∈ db.users, u.id ≠ uid) →
        usersFindOne db uid
          = .error (.notFound ("User with ID " ++ uid ++ " not found"))) ∧
    (∀ (db : UsersDb) (email : String),
        (∀ u ∈ db.users, u.email ≠ email) →
        usersFindByEmail db email = none) := by
  constructor
  · intro db uid h
    have hf : db.users.find? (fun u => u.id = uid) = none :=
      List.find?_eq_none.mpr (fun u hu => by simp [h u hu])
    simp only [usersFindOne, hf]
  · intro db email h
    have hf : db.users.find? (fun u => u.email = email) = none :=
      List.find?_eq_none.mpr (fun u hu => by simp [h u hu])
    simp only [usersFindByEmail, hf, Option.map_none']

/-- Witness for C9 on the one-user database: id `u9` yields `NotFound`,
email `nobody@example.com` yields `null`. -/
theorem lookup_asymmetry_witness :
    usersFindOne c3Db "u9"
      = .error (.notFound ("User with ID " ++ "u9" ++ " not found")) ∧
    usersFindByEmail c3Db "nobody@example.com" = none :=
  ⟨lookup_asymmetry.1 c3Db "u9" (by decide),
   lookup_asymmetry.2 c3Db "nobody@example.com" (by decide)⟩

/-! ## Role guard, upload and read-path theorems -/

/-- C6: with no declared roles (or an empty set) the role check passes; with
a non-empty declared set and a resolved user, the check passes exactly when
the user's role is a member of the set, failing with `Forbidden` when it is
not and passing when it is. -/
theorem rolesGuard_membership :
    (∀ u, rolesGuardCanActivate none u = true) ∧
    (∀ u, rolesGuardCanActivate (some []) u = true) ∧
    (∀ (roles : List String) (u : UserView), roles ≠ [] →
        (rolesGuardCanActivate (some roles) (some u) = true
          ↔ u.role.toColumn ∈ roles)) ∧
    (∀ (roles : List String) (u : UserView), roles ≠ [] →
        u.role.toColumn ∉ roles →
        rolesGuardOutcome (some roles) (some u)
          = .error (.forbidden "Forbidden resource")) ∧
    (∀ (roles : List String) (u : UserView), roles ≠ [] →
        u.role.toColumn ∈ roles →
        rolesGuardOutcome (some roles) (some u) = .ok ()) := by
  have hcan : ∀ (roles : List String) (u : UserView), roles ≠ [] →
      (rolesGuardCanActivate (some roles) (some u) = true
        ↔ u.role.toColumn ∈ roles) := by
    intro roles u hne
    have hlen : ¬ roles.length = 0 := by
      simpa [List.length_eq_zero] using hne
    simp [rolesGuardCanActivate, hlen]
  refine ⟨fun u => rfl, fun u => rfl, hcan, ?_, ?_⟩
  · intro roles u hne hmem
    have hcnot : ¬ rolesGuardCanActivate (some roles) (some u) = true := by
      intro hc
      exact hmem ((hcan roles u hne).mp hc)
    simp [rolesGuardOutcome, hcnot]
  · intro roles u hne hmem
    simp [rolesGuardOutcome, (hcan roles u hne).mpr hmem]

/-- Witness for C6: a route requiring `admin` rejects a `user`-role caller
with `Forbidden` and accepts an `admin`-role caller. -/
theorem rolesGuard_membership_witness :
    rolesGuardOutcome (some ["admin"]) (some c6UserView)
      = .error (.forbidden "Forbidden resource") ∧
    rolesGuardOutcome (some ["admin"]) (some c6AdminView) = .ok () :=
  ⟨rolesGuard_membership.2.2.2.1 ["admin"] c6UserView (by decide) (by decide),
   rolesGuard_membership.2.2.2.2 ["admin"] c6AdminView (by decide) (by decide)⟩

/-- C7 counterexample: a PDF upload and an over-5-MiB upload both fail
*before* any provider call (second component `false`), but the error the
operation surfaces is `InternalServerErrorException('Upload failed: …')`
produced by the catch-all — not a `BadRequest`. -/
theorem upload_invalid_file_not_bad_request_cex :
    uploadImage c7PdfFile (.success c7Resp)
      = (.error (.internalMsg
          "Upload failed: Invalid file type. Only JPEG, PNG, and GIF are allowed."),
         false) ∧
    isBadRequestResult (uploadImage c7PdfFile (.success c7Resp)).1 = false ∧
    uploadImage c7BigFile (.success c7Resp)
      = (.error (.internalMsg "Upload failed: File size exceeds the 5MB limit."),
         false) ∧
    isBadRequestResult (uploadImage c7BigFile (.success c7Resp)).1 = false :=
  ⟨rfl, rfl, rfl, rfl⟩

/-- C7 (amended): a file failing the MIME allow-list or the 5 MiB bound is
rejected by `validateFile` with `BadRequest` and the operation returns
without attempting the provider call, surfacing the failure as
`InternalError` wrapping the validation message; a file passing validation
(with buffer data) proceeds to the provider call. -/
theorem upload_validation_before_provider (file : MulterFile)
    (provider : ProviderOutcome) :
    ((allowedMimeTypes.contains file.mimetype = false
        ∨ file.size > maxSizeInBytes) →
      ∃ m, validateFile file = .error (.badRequest m) ∧
        uploadImage file provider
          = (.error (.internalMsg ("Upload failed: " ++ m)), false)) ∧
    (validateFile file = .ok () → file.hasBuffer = true →
      (uploadImage file provider).2 = true) := by
  constructor
  · intro h
    by_cases hm : file.mimetype ∈ allowedMimeTypes
    · have hsize : file.size > maxSizeInBytes := by
        rcases h with h | h
        · simp at h
          exact absurd hm h
        · exact h
      refine ⟨"File size exceeds the 5MB limit.", ?_, ?_⟩
      · simp [validateFile, hm, hsize]
      · simp [uploadImage, validateFile, hm, hsize, AppError.messageOf]
    · refine ⟨"Invalid file type. Only JPEG, PNG, and GIF are allowed.", ?_, ?_⟩
      · simp [validateFile, hm]
      · simp [uploadImage, validateFile, hm, AppError.messageOf]
  · intro hok hb
    have hcond : file.mimetype ∈ allowedMimeTypes
        ∧ ¬ maxSizeInBytes < file.size := by
      by_cases hm : file.mimetype ∈ allowedMimeTypes
      · by_cases hs : maxSizeInBytes < file.size
        · exact absurd hok (by simp [validateFile, hm, hs])
        · exact ⟨hm, hs⟩
      · exact absurd hok (by simp [validateFile, hm])
    rcases hcond with ⟨hm, hs⟩
    cases provider <;> simp [uploadImage, validateFile, hm, hs, hb]

/-- Witness for C7: the PDF file is rejected before the provider call with
the wrapped validation message; the small PNG proceeds to the provider. -/
theorem upload_validation_before_provider_witness :
    (∃ m, validateFile c7PdfFile = .error (.badRequest m) ∧
      uploadImage c7PdfFile (.success c7Resp)
        = (.error (.internalMsg ("Upload failed: " ++ m)), false)) ∧
    (uploadImage c7GoodFile (.success c7Resp)).2 = true :=
  ⟨(upload_validation_before_provider c7PdfFile (.success c7Resp)).1
     (Or.inl (by decide)),
   (upload_validation_before_provider c7GoodFile (.success c7Resp)).2
     (by rfl) (by rfl)⟩

lemma find?_map_preserve {α : Type} (l : List α) (g : α → α) (p : α → Bool)
    (h : ∀ x, p (g x) = p x) :
    (l.map g).find? p = (l.find? p).map g := by
  induction l with
  | nil => rfl
  | cons a t ih =>
    by_cases hp : p a = true
    · rw [List.map_cons, List.find?_cons_of_pos _ (by rw [h]; exact hp),
        List.find?_cons_of_pos _ hp, Option.map_some']
    · rw [List.map_cons, List.find?_cons_of_neg _ (by rw [h]; simpa using hp),
        List.find?_cons_of_neg _ (by simpa using hp), ih]

/-- C8: no user read path exposes the stored password hash.  The stripped
view is independent of the hash; list-all, lookup-by-id and lookup-by-email
are invariant under rewriting every stored hash; the registration response
is the stripped view of a persisted record; and a successful login returns
only the user's id and email. -/
theorem password_never_in_read_paths :
    (∀ (u : User) (p : String),
        stripPassword { u with password := p } = stripPassword u) ∧
    (∀ (db : UsersDb) (f : String → String),
        usersFindAll (scrubDb db f) = usersFindAll db) ∧
    (∀ (db : UsersDb) (f : String → String) (uid : String),
        usersFindOne (scrubDb db f) uid = usersFindOne db uid) ∧
    (∀ (db : UsersDb) (f : String → String) (email : String),
        usersFindByEmail (scrubDb db f) email = usersFindByEmail db email) ∧
    (∀ (db : UsersDb) (dto : CreateUserDto) (v : UserView) (db2 : UsersDb),
        usersCreate db dto = (.ok v, db2) →
        ∃ u ∈ db2.users, v = stripPassword u) ∧
    (∀ (db : UsersDb) (email password : String) (t : JwtPayload),
        usersLogin db email password = .ok t →
        ∃ u ∈ db.users, t.id = u.id ∧ t.email = u.email) := by
  refine ⟨fun u p => rfl, ?_, ?_, ?_, ?_, ?_⟩
  · intro db f
    simp only [usersFindAll, scrubDb, List.map_map]
    rfl
  · intro db f uid
    simp only [usersFindOne, scrubDb]
    rw [find?_map_preserve db.users
      (fun u => { u with password := f u.password })
      (fun u => u.id = uid) (fun x => rfl)]
    rcases hf : db.users.find? (fun u => u.id = uid) with - | u <;>
      simp [hf, stripPassword]
  · intro db f email
    simp only [usersFindByEmail, scrubDb]
    rw [find?_map_preserve db.users
      (fun u => { u with password := f u.password })
      (fun u => u.email = email) (fun x => rfl)]
    rcases hf : db.users.find? (fun u => u.email = email) with - | u <;>
      simp [hf, stripPassword]
  · intro db dto v db2 h
    rcases hf : db.users.find? (fun u => u.email = dto.email) with - | u
    · simp only [usersCreate, hf, Prod.mk.injEq, Except.ok.injEq] at h
      refine ⟨{ id := "u" ++ toString db.nextId, email := dto.email,
                password := bcryptHash dto.password,
                firstName := dto.firstName, lastName := dto.lastName,
                role := dto.role }, ?_, h.1.symm⟩
      rw [← h.2]
      simp
    · simp only [usersCreate, hf, Prod.mk.injEq] at h
      exact absurd h.1 (by simp)
  · intro db email password t h
    rcases hf : db.users.find? (fun u => u.email = email) with - | u
    · simp only [usersLogin, hf] at h
      exact absurd h (by simp)
    · refine ⟨u, List.mem_of_find?_eq_some hf, ?_⟩
      rcases hc : bcryptCompare password u.password with - | -
      · simp [usersLogin, hf, hc] at h
      · simp only [usersLogin, hf, hc, if_true] at h
        rw [← Except.ok.inj h]
        exact ⟨rfl, rfl⟩

/-- Witness for C8: registering on the empty database yields a view that is
the password-stripped form of the persisted record, and logging in yields a
payload carrying an existing user's id and email only. -/
theorem password_never_in_read_paths_witness :
    (∃ u ∈ ((usersCreate c5Db c5Dto).2).users,
        (stripPassword { id := "u0", email := "alice@example.com",
                         password := bcryptHash "correct-password",
                         firstName := "Alice", lastName := "Liddell",
                         role := .user })
          = stripPassword u) ∧
    (∃ u ∈ c3Db.users,
        ({ id := "u1", email := "alice@example.com" } : JwtPayload).id = u.id ∧
        ({ id := "u1", email := "alice@example.com" } : JwtPayload).email
          = u.email) :=
  ⟨password_never_in_read_paths.2.2.2.2.1 c5Db c5Dto
     (stripPassword { id := "u0", email := "alice@example.com",
                      password := bcryptHash "correct-password",
                      firstName := "Alice", lastName := "Liddell",
                      role := .user })
     (usersCreate c5Db c5Dto).2 (by rfl),
   password_never_in_read_paths.2.2.2.2.2 c3Db "alice@example.com"
     "correct-password" { id := "u1", email := "alice@example.com" } (by rfl)⟩

end NestEcommerce
